import Mathlib

/-!
Shallow embedding of the Position Risk Control Loop and Safe Order
Execution Engine of the AI_Trading repository.

Sources embedded:
- `src/risk_manager.py` : `RiskManager.monitor_and_execute`, `RiskManager.execute_close`
- `src/execution/alpaca_trader.py` : `AlpacaTrader.get_live_portfolio`,
  `AlpacaTrader.execute_decisions` (with `get_realtime_price` abstracted as a
  price oracle and the brokerage client abstracted as a submit-outcome oracle).

Prices and cash are modelled as rationals; Python `int(...)` truncation is
modelled by `pyInt`.
-/

/-- Side stored in a RiskRecord (`"LONG"`/`"SHORT"` strings in the source). -/
inductive Side where
  | LONG
  | SHORT
deriving DecidableEq, Repr

/-- Order side (`OrderSide.BUY`/`OrderSide.SELL` of the alpaca SDK). -/
inductive OrderSide where
  | buy
  | sell
deriving DecidableEq, Repr

/-- Which stop produced the trigger reason string in `monitor_and_execute`
(line 132): `TRAIL` when `final_stop == trail_stop`, else `HARD`. -/
inductive TriggerKind where
  | HARD
  | TRAIL
deriving DecidableEq, Repr

/-- A stored risk record: `risk_data[symbol] = {"extreme_price": ..., "side": ...}`. -/
structure RiskRecord where
  extreme_price : ℚ
  side : Side
deriving DecidableEq, Repr

/-- A live position as read from the gateway in `monitor_and_execute`:
`position.qty` is signed (positive = long, negative = short). -/
structure Position where
  symbol : String
  qty : ℚ
  avg_entry_price : ℚ
  current_price : ℚ
deriving DecidableEq, Repr

/-- Python `int(q)` truncation toward zero on a float, modelled on ℚ. -/
def pyInt (q : ℚ) : ℤ :=
  if q < 0 then -⌊-q⌋ else ⌊q⌋

/-- The stop-loss evaluation of `monitor_and_execute` lines 112-115 (long
branch) and 123-126 (short branch), together with the trigger-kind reason of
line 132 which re-derives the kind by comparing `final_stop` with
`trail_stop`. Returns `(final_stop, triggered, kind)`. -/
def stopEval (is_long : Bool) (entry extreme current hard_pct trail_pct : ℚ) :
    ℚ × Bool × TriggerKind :=
  if is_long then
    let hard_stop := entry * (1 - hard_pct)
    let trail_stop := extreme * (1 - trail_pct)
    let final_stop := max hard_stop trail_stop
    let triggered := decide (current ≤ final_stop)
    (final_stop, triggered,
      if final_stop = trail_stop then TriggerKind.TRAIL else TriggerKind.HARD)
  else
    let hard_stop := entry * (1 + hard_pct)
    let trail_stop := extreme * (1 + trail_pct)
    let final_stop := min hard_stop trail_stop
    let triggered := decide (final_stop ≤ current)
    (final_stop, triggered,
      if final_stop = trail_stop then TriggerKind.TRAIL else TriggerKind.HARD)

/-- The persisted Risk State Store `risk_data`: a dict keyed by symbol,
modelled as an association list (Python dicts keep insertion order). -/
abbrev RiskData := List (String × RiskRecord)

/-- Dict read `risk_data.get(symbol)`. -/
def dlookup (s : String) : RiskData → Option RiskRecord
  | [] => none
  | (k, r) :: t => if k = s then some r else dlookup s t

/-- In-place update `risk_data[symbol]["extreme_price"] = price`. -/
def dupdate (s : String) (price : ℚ) : RiskData → RiskData
  | [] => []
  | (k, r) :: t =>
      if k = s then (k, { r with extreme_price := price }) :: dupdate s price t
      else (k, r) :: dupdate s price t

/-- Dict deletion `del risk_data[symbol]`. -/
def derase (s : String) : RiskData → RiskData
  | [] => []
  | (k, r) :: t => if k = s then derase s t else (k, r) :: derase s t

/-- The end-of-pass pruning of line 136: the dict comprehension keeping only
symbols among the live positions. -/
def dkeep (syms : List String) : RiskData → RiskData
  | [] => []
  | (k, r) :: t => if k ∈ syms then (k, r) :: dkeep syms t else dkeep syms t

/-- A closing order issued on a trigger, with the submit outcome recorded. -/
structure CloseOrder where
  symbol : String
  qty : ℚ
  side : OrderSide
  kind : TriggerKind
  success : Bool
deriving DecidableEq, Repr

/-- A closing order without its submit outcome. -/
def stripClose (c : CloseOrder) : String × ℚ × OrderSide × TriggerKind :=
  (c.symbol, c.qty, c.side, c.kind)

/-- Embeds `RiskManager.execute_close`: the `submit_order` call is wrapped in
`try/except`, so the function always returns normally; the submit outcome is
supplied by the `submitOk` oracle and only reported, never re-raised. -/
def execute_close (submitOk : String → Bool) (symbol : String) : Bool :=
  submitOk symbol

/-- Record seeding (lines 98-102): if no record exists for the symbol, one
is created with `extreme_price = current_price` and the side of the live
position. -/
def seedRecord (rd : RiskData) (p : Position) : RiskData :=
  if (dlookup p.symbol rd).isSome then rd
  else rd ++ [(p.symbol,
    ⟨p.current_price, if 0 < p.qty then Side.LONG else Side.SHORT⟩)]

/-- The stored extreme price read back for a symbol (line 104). -/
def extremeOf (rd : RiskData) (p : Position) : ℚ :=
  match dlookup p.symbol rd with
  | some r => r.extreme_price
  | none => p.current_price

/-- The favorable extreme update (lines 107-109 for LONG, 118-120 for
SHORT): strictly better highs for longs, strictly better lows for shorts.
Returns the updated risk data and the extreme used for evaluation. -/
def updatedRd (rd : RiskData) (p : Position) : RiskData × ℚ :=
  let rd0 := seedRecord rd p
  let x0 := extremeOf rd0 p
  let improve := if 0 < p.qty then x0 < p.current_price else p.current_price < x0
  (if improve then dupdate p.symbol p.current_price rd0 else rd0,
   if improve then p.current_price else x0)

/-- The state-and-trigger part of the per-position loop body of
`monitor_and_execute` (lines 89-134): seed a record on first observation,
update the extreme in the favorable direction, evaluate the stops and, on
trigger, delete the record. Returns the risk data after this position and
the trigger kind when the stop fired. -/
def monitorCore (hard_pct trail_pct : ℚ) (rd : RiskData) (p : Position) :
    RiskData × Option TriggerKind :=
  let u := updatedRd rd p
  let ev := stopEval (decide (0 < p.qty)) p.avg_entry_price u.2 p.current_price
    hard_pct trail_pct
  if ev.2.1 then (derase p.symbol u.1, some ev.2.2)
  else (u.1, none)

/-- The full per-position loop body: on trigger the closing order for the
full absolute quantity is submitted in the opposing direction through
`execute_close`, whose outcome is recorded but never alters the state. -/
def monitorStep (hard_pct trail_pct : ℚ) (submitOk : String → Bool)
    (rd : RiskData) (p : Position) : RiskData × Option CloseOrder :=
  ((monitorCore hard_pct trail_pct rd p).1,
   (monitorCore hard_pct trail_pct rd p).2.map
     (fun kind =>
       ⟨p.symbol, |p.qty|, if 0 < p.qty then OrderSide.sell else OrderSide.buy,
        kind, execute_close submitOk p.symbol⟩))

/-- The `for position in positions` loop of `monitor_and_execute`,
processing positions in order and accumulating issued closing orders. -/
def monitorLoop (hard_pct trail_pct : ℚ) (submitOk : String → Bool)
    (rd : RiskData) : List Position → RiskData × List CloseOrder
  | [] => (rd, [])
  | p :: rest =>
      let out := monitorStep hard_pct trail_pct submitOk rd p
      let next := monitorLoop hard_pct trail_pct submitOk out.1 rest
      (next.1, out.2.toList ++ next.2)

/-- One monitoring pass: `RiskManager.monitor_and_execute` after a successful
`get_all_positions` read. An empty position list clears the store (lines
82-86); otherwise every position is processed in order and the store is
pruned to the live symbols (line 136). The returned risk data is what
`_save_data` persists at the end of the pass. -/
def monitor_and_execute (hard_pct trail_pct : ℚ) (submitOk : String → Bool)
    (rd : RiskData) (positions : List Position) : RiskData × List CloseOrder :=
  if positions = [] then ([], [])
  else
    let looped := monitorLoop hard_pct trail_pct submitOk rd positions
    (dkeep (positions.map Position.symbol) looped.1, looped.2)

/-- ASCII upper-casing of one character, as Python `str.upper` does on the
action strings appearing here. -/
def pyUpperChar (c : Char) : Char :=
  if 'a' ≤ c ∧ c ≤ 'z' then Char.ofNat (c.toNat - 32) else c

/-- Python `s.upper()` on an ASCII string. -/
def pyUpper (s : String) : String := ⟨s.data.map pyUpperChar⟩

/-- Numeric value of a decimal digit character. -/
def digitVal (c : Char) : Option ℕ :=
  if '0' ≤ c ∧ c ≤ '9' then some (c.toNat - '0'.toNat) else none

/-- Parse a non-empty all-digit character list as a natural number. -/
def parseNatChars (cs : List Char) : Option ℕ :=
  match cs with
  | [] => none
  | _ => cs.foldl (fun acc c => acc.bind (fun a => (digitVal c).map (fun d => a * 10 + d)))
      (some 0)

/-- Python `int(s)` on a string: an optional sign followed by digits, raising
`ValueError` otherwise. -/
def pyStrToInt (s : String) : Except String ℤ :=
  match s.data with
  | '-' :: rest =>
      match parseNatChars rest with
      | some n => Except.ok (-(n : ℤ))
      | none => Except.error ("invalid literal for int")
  | cs =>
      match parseNatChars cs with
      | some n => Except.ok (n : ℤ)
      | none => Except.error ("invalid literal for int")

/-- A dynamically-typed decision field value: the quantity in a decision dict
may be an int or an arbitrary string. -/
inductive PyVal where
  | int (n : ℤ)
  | str (s : String)
deriving DecidableEq, Repr

/-- Python `int(v)`: identity on ints, string parsing for strings. -/
def pyToInt : PyVal → Except String ℤ
  | PyVal.int n => Except.ok n
  | PyVal.str s => pyStrToInt s

/-- One proposed decision `{action, quantity}` (confidence/reasoning fields
are never read by `execute_decisions`). -/
structure Decision where
  action : String
  quantity : PyVal
deriving DecidableEq, Repr

/-- A raw alpaca position as consumed by `get_live_portfolio`: `pos.qty` is
the signed quantity string of the SDK (negative for shorts) and `pos.side`
the side string (`"long"` or `"short"`). -/
structure RawPosition where
  symbol : String
  qty : ℚ
  side : String
deriving DecidableEq, Repr

/-- One entry of the formatted portfolio dict: `{"long": ..., "short": ...}`. -/
structure PortfolioEntry where
  long : ℚ
  short : ℚ
deriving DecidableEq, Repr

/-- The formatted positions dict of `get_live_portfolio`. -/
abbrev Portfolio := List (String × PortfolioEntry)

/-- Dict read `positions.get(ticker)`. -/
def plookup (s : String) : Portfolio → Option PortfolioEntry
  | [] => none
  | (k, v) :: t => if k = s then some v else plookup s t

/-- Dict assignment `formatted_positions[pos.symbol] = {...}`. -/
def pset (s : String) (v : PortfolioEntry) : Portfolio → Portfolio
  | [] => [(s, v)]
  | (k, w) :: t => if k = s then (k, v) :: t else (k, w) :: pset s v t

/-- The position-formatting step of `AlpacaTrader.get_live_portfolio` (lines
31-36): the signed `pos.qty` is stored unchanged under `"long"` or `"short"`
depending on the side string — no absolute value is taken. -/
def get_live_portfolio (positions : List RawPosition) : Portfolio :=
  positions.foldl
    (fun acc p =>
      pset p.symbol
        ⟨if p.side = "long" then p.qty else 0,
         if p.side = "short" then p.qty else 0⟩ acc)
    []

/-- The reason attached to a rejected decision (`skip_reason` messages of
`execute_decisions`). -/
inductive RejectReason where
  | existingShort
  | existingLong
  | noLongPosition
  | noShortPosition
deriving DecidableEq, Repr

/-- One observable outcome per processed decision item. -/
inductive Event where
  | hold (ticker : String)
  | rejected (ticker : String) (reason : RejectReason)
  | submitted (ticker : String) (side : OrderSide) (qty : ℤ)
  | submitFailed (ticker : String) (side : OrderSide) (qty : ℤ)
deriving DecidableEq, Repr

/-- The environment of one `execute_decisions` call: the portfolio snapshot
and cash fetched once per batch, the `get_realtime_price` oracle (returning
`0` on failure, as the source does), and the `submit_order` outcome oracle. -/
structure ExecEnv where
  portfolio : Portfolio
  cash : ℚ
  buffer_pct : ℚ
  price : String → ℚ
  submitOk : String → Bool

/-- The `submit_order` call of `execute_decisions` wrapped in `try/except`:
always returns an event, never propagates the failure. -/
def submitEvent (env : ExecEnv) (ticker : String) (side : OrderSide) (qty : ℤ) : Event :=
  if env.submitOk ticker then Event.submitted ticker side qty
  else Event.submitFailed ticker side qty

/-- The safety-check-and-order logic for one decision item whose quantity
parsed to an int: the branch structure of lines 90-163, evaluated against the
snapshot in `env`. -/
def execItemEvents (env : ExecEnv) (ticker : String) (action : String)
    (quantity : ℤ) : List Event :=
  if quantity ≤ 0 ∨ action = "HOLD" then
    [Event.hold ticker]
  else
    let entry := (plookup ticker env.portfolio).getD ⟨0, 0⟩
    let long_qty := entry.long
    let short_qty := entry.short
    if action = "BUY" then
      let rt := env.price ticker
      let quantity :=
        if rt ≠ 0 then
          let max_qty := pyInt (env.cash * (1 - env.buffer_pct) / rt)
          if max_qty < quantity then max_qty else quantity
        else quantity
      if 0 < short_qty then
        [Event.rejected ticker RejectReason.existingShort]
      else
        [submitEvent env ticker OrderSide.buy
          (pyInt ((quantity : ℚ) * (1 - env.buffer_pct)))]
    else if action = "SHORT" then
      if 0 < long_qty then
        [Event.rejected ticker RejectReason.existingLong]
      else
        [submitEvent env ticker OrderSide.sell quantity]
    else if action = "SELL" then
      if long_qty ≤ 0 then
        [Event.rejected ticker RejectReason.noLongPosition]
      else
        [submitEvent env ticker OrderSide.sell (min quantity (pyInt long_qty))]
    else if action = "COVER" then
      if short_qty ≤ 0 then
        [Event.rejected ticker RejectReason.noShortPosition]
      else
        [submitEvent env ticker OrderSide.buy
          (pyInt ((min quantity (pyInt short_qty) : ℚ) * (1 - env.buffer_pct)))]
    else
      []

/-- The body of the per-ticker loop of `AlpacaTrader.execute_decisions`
(lines 85-163). `Except.error` models the uncaught `ValueError` from
`int(decision.get("quantity", 0))` on a malformed quantity. -/
def execItem (env : ExecEnv) (ticker : String) (d : Decision) :
    Except String (List Event) :=
  match pyToInt d.quantity with
  | Except.error e => Except.error e
  | Except.ok quantity => Except.ok (execItemEvents env ticker (pyUpper d.action) quantity)

/-- The decision loop: items processed in insertion order; an uncaught
exception aborts the remaining items. -/
def execDecisions (env : ExecEnv) : List (String × Decision) → Except String (List Event)
  | [] => Except.ok []
  | (t, d) :: rest =>
      match execItem env t d with
      | Except.error e => Except.error e
      | Except.ok evs =>
          match execDecisions env rest with
          | Except.error e => Except.error e
          | Except.ok more => Except.ok (evs ++ more)

/-- `AlpacaTrader.execute_decisions`: formats the raw account state once
(`get_live_portfolio`) and validates/submits every decision against that one
snapshot. -/
def execute_decisions (cash buffer_pct : ℚ) (raw : List RawPosition)
    (price : String → ℚ) (submitOk : String → Bool)
    (decisions : List (String × Decision)) : Except String (List Event) :=
  execDecisions ⟨get_live_portfolio raw, cash, buffer_pct, price, submitOk⟩ decisions

/-! Lemmas about the risk-data dictionary operations. -/

theorem dlookup_append_single_ne (s k : String) (r : RiskRecord) (rd : RiskData)
    (h : k ≠ s) : dlookup s (rd ++ [(k, r)]) = dlookup s rd := by
  induction rd with
  | nil => simp [dlookup, h]
  | cons e t ih =>
      obtain ⟨a, b⟩ := e
      simp only [List.cons_append, dlookup]
      split <;> simp [ih]

theorem dlookup_dupdate_ne (s k : String) (price : ℚ) (rd : RiskData)
    (h : k ≠ s) : dlookup s (dupdate k price rd) = dlookup s rd := by
  induction rd with
  | nil => simp [dlookup, dupdate]
  | cons e t ih =>
      obtain ⟨a, b⟩ := e
      by_cases hak : a = k
      · subst hak
        simp [dupdate, dlookup, h, ih]
      · by_cases has : a = s <;> simp [dupdate, dlookup, hak, has, ih, Ne.symm h]

theorem dlookup_dupdate_self (s : String) (price : ℚ) (rd : RiskData) :
    dlookup s (dupdate s price rd) =
      (dlookup s rd).map (fun r => { r with extreme_price := price }) := by
  induction rd with
  | nil => simp [dlookup, dupdate]
  | cons e t ih =>
      obtain ⟨a, b⟩ := e
      by_cases has : a = s <;> simp [dupdate, dlookup, has, ih]

theorem dlookup_derase_self (s : String) (rd : RiskData) :
    dlookup s (derase s rd) = none := by
  induction rd with
  | nil => simp [dlookup, derase]
  | cons e t ih =>
      obtain ⟨a, b⟩ := e
      by_cases has : a = s <;> simp [derase, dlookup, has, ih]

theorem dlookup_derase_ne (s k : String) (rd : RiskData)
    (h : k ≠ s) : dlookup s (derase k rd) = dlookup s rd := by
  induction rd with
  | nil => simp [dlookup, derase]
  | cons e t ih =>
      obtain ⟨a, b⟩ := e
      by_cases hak : a = k
      · subst hak
        simp [derase, dlookup, h, ih]
      · by_cases has : a = s <;> simp [derase, dlookup, hak, has, ih, Ne.symm h]

theorem dlookup_dkeep (s : String) (syms : List String) (rd : RiskData) :
    dlookup s (dkeep syms rd) = if s ∈ syms then dlookup s rd else none := by
  induction rd with
  | nil => simp [dlookup, dkeep]
  | cons e t ih =>
      obtain ⟨a, b⟩ := e
      by_cases has : a = s
      · subst has
        by_cases hm : a ∈ syms <;> simp [dkeep, dlookup, hm, ih]
      · by_cases hm : a ∈ syms <;> simp [dkeep, dlookup, hm, has, ih]

/-! Lemmas about the per-position step. -/

theorem monitorCore_fst (hp tp : ℚ) (rd : RiskData) (p : Position) :
    (monitorCore hp tp rd p).1 =
      if (stopEval (decide (0 < p.qty)) p.avg_entry_price (updatedRd rd p).2
            p.current_price hp tp).2.1 then
        derase p.symbol (updatedRd rd p).1
      else (updatedRd rd p).1 := by
  simp only [monitorCore]
  split <;> rfl

theorem monitorCore_snd (hp tp : ℚ) (rd : RiskData) (p : Position) :
    (monitorCore hp tp rd p).2 =
      if (stopEval (decide (0 < p.qty)) p.avg_entry_price (updatedRd rd p).2
            p.current_price hp tp).2.1 then
        some (stopEval (decide (0 < p.qty)) p.avg_entry_price (updatedRd rd p).2
          p.current_price hp tp).2.2
      else none := by
  simp only [monitorCore]
  split <;> rfl

theorem seedRecord_some (rd : RiskData) (p : Position) (r : RiskRecord)
    (h : dlookup p.symbol rd = some r) : seedRecord rd p = rd := by
  simp [seedRecord, h]

theorem updatedRd_lookup_ne (rd : RiskData) (p : Position) (s : String)
    (h : p.symbol ≠ s) : dlookup s (updatedRd rd p).1 = dlookup s rd := by
  have h0 : dlookup s (seedRecord rd p) = dlookup s rd := by
    unfold seedRecord
    split
    · rfl
    · exact dlookup_append_single_ne s p.symbol _ rd h
  simp only [updatedRd]
  split_ifs <;>
    first
      | (rw [dlookup_dupdate_ne s p.symbol _ _ h]; exact h0)
      | exact h0

theorem monitorCore_lookup_ne (hp tp : ℚ) (rd : RiskData) (p : Position) (s : String)
    (h : p.symbol ≠ s) :
    dlookup s (monitorCore hp tp rd p).1 = dlookup s rd := by
  rw [monitorCore_fst]
  split
  · rw [dlookup_derase_ne s p.symbol _ h]
    exact updatedRd_lookup_ne rd p s h
  · exact updatedRd_lookup_ne rd p s h

theorem monitorCore_trigger_lookup (hp tp : ℚ) (rd : RiskData) (p : Position)
    (k : TriggerKind) (h : (monitorCore hp tp rd p).2 = some k) :
    dlookup p.symbol (monitorCore hp tp rd p).1 = none := by
  by_cases hC : (stopEval (decide (0 < p.qty)) p.avg_entry_price (updatedRd rd p).2
      p.current_price hp tp).2.1
  · rw [monitorCore_fst, if_pos hC]
    exact dlookup_derase_self _ _
  · rw [monitorCore_snd, if_neg hC] at h
    exact absurd h (by simp)

theorem updatedRd_lookup_self (rd : RiskData) (p : Position) (r : RiskRecord)
    (h : dlookup p.symbol rd = some r) :
    ∃ r', dlookup p.symbol (updatedRd rd p).1 = some r' ∧ r'.side = r.side ∧
      (0 < p.qty → r.extreme_price ≤ r'.extreme_price) ∧
      (¬ 0 < p.qty → r'.extreme_price ≤ r.extreme_price) := by
  have hs : seedRecord rd p = rd := seedRecord_some rd p r h
  by_cases hq : 0 < p.qty
  · by_cases himp : r.extreme_price < p.current_price
    · refine ⟨{ r with extreme_price := p.current_price }, ?_, rfl, ?_, ?_⟩
      · simp [updatedRd, hs, extremeOf, h, hq, himp, dlookup_dupdate_self]
      · intro
        exact le_of_lt himp
      · intro hq2
        exact absurd hq hq2
    · refine ⟨r, ?_, rfl, ?_, ?_⟩
      · simp [updatedRd, hs, extremeOf, h, hq, himp]
      · intro
        exact le_refl _
      · intro hq2
        exact absurd hq hq2
  · by_cases himp : p.current_price < r.extreme_price
    · refine ⟨{ r with extreme_price := p.current_price }, ?_, rfl, ?_, ?_⟩
      · simp [updatedRd, hs, extremeOf, h, hq, himp, dlookup_dupdate_self]
      · intro hq2
        exact absurd hq2 hq
      · intro
        exact le_of_lt himp
    · refine ⟨r, ?_, rfl, ?_, ?_⟩
      · simp [updatedRd, hs, extremeOf, h, hq, himp]
      · intro hq2
        exact absurd hq2 hq
      · intro
        exact le_refl _

theorem monitorCore_lookup_self (hp tp : ℚ) (rd : RiskData) (p : Position)
    (r : RiskRecord) (h : dlookup p.symbol rd = some r) :
    dlookup p.symbol (monitorCore hp tp rd p).1 = none ∨
    ∃ r', dlookup p.symbol (monitorCore hp tp rd p).1 = some r' ∧ r'.side = r.side ∧
      (0 < p.qty → r.extreme_price ≤ r'.extreme_price) ∧
      (¬ 0 < p.qty → r'.extreme_price ≤ r.extreme_price) := by
  rw [monitorCore_fst]
  split
  · left
    exact dlookup_derase_self _ _
  · right
    exact updatedRd_lookup_self rd p r h

theorem updatedRd_snd_some (rd : RiskData) (p : Position) (r : RiskRecord)
    (h : dlookup p.symbol rd = some r) :
    (updatedRd rd p).2 =
      if 0 < p.qty then max r.extreme_price p.current_price
      else min r.extreme_price p.current_price := by
  have hs : seedRecord rd p = rd := seedRecord_some rd p r h
  by_cases hq : 0 < p.qty
  · by_cases himp : r.extreme_price < p.current_price
    · simp [updatedRd, hs, extremeOf, h, hq, himp, max_eq_right (le_of_lt himp)]
    · simp [updatedRd, hs, extremeOf, h, hq, himp, max_eq_left (le_of_not_lt himp)]
  · by_cases himp : p.current_price < r.extreme_price
    · simp [updatedRd, hs, extremeOf, h, hq, himp, min_eq_right (le_of_lt himp)]
    · simp [updatedRd, hs, extremeOf, h, hq, himp, min_eq_left (le_of_not_lt himp)]

/-! Lemmas about the monitoring loop. -/

theorem monitorStep_fst (hp tp : ℚ) (ok : String → Bool) (rd : RiskData) (p : Position) :
    (monitorStep hp tp ok rd p).1 = (monitorCore hp tp rd p).1 := rfl

theorem monitorStep_close_cases (hp tp : ℚ) (ok : String → Bool) (rd : RiskData)
    (p : Position) (c : CloseOrder) (h : (monitorStep hp tp ok rd p).2 = some c) :
    c.symbol = p.symbol ∧ (monitorCore hp tp rd p).2 = some c.kind := by
  simp only [monitorStep, Option.map_eq_some'] at h
  obtain ⟨k, hk, hc⟩ := h
  subst hc
  exact ⟨rfl, hk⟩

theorem monitorLoop_lookup_notmem (hp tp : ℚ) (ok : String → Bool) :
    ∀ (ps : List Position) (rd : RiskData) (s : String),
      s ∉ ps.map Position.symbol →
      dlookup s (monitorLoop hp tp ok rd ps).1 = dlookup s rd := by
  intro ps
  induction ps with
  | nil => intro rd s _; rfl
  | cons p rest ih =>
      intro rd s h
      simp only [List.map_cons, List.mem_cons] at h
      push_neg at h
      obtain ⟨h1, h2⟩ := h
      simp only [monitorLoop]
      rw [ih _ s h2, monitorStep_fst, monitorCore_lookup_ne hp tp rd p s (Ne.symm h1)]

theorem monitorLoop_fst_ok (hp tp : ℚ) (ok₁ ok₂ : String → Bool) :
    ∀ (ps : List Position) (rd : RiskData),
      (monitorLoop hp tp ok₁ rd ps).1 = (monitorLoop hp tp ok₂ rd ps).1 := by
  intro ps
  induction ps with
  | nil => intro rd; rfl
  | cons p rest ih =>
      intro rd
      simp only [monitorLoop]
      exact ih (monitorCore hp tp rd p).1

theorem monitorLoop_closes_ok (hp tp : ℚ) (ok₁ ok₂ : String → Bool) :
    ∀ (ps : List Position) (rd : RiskData),
      (monitorLoop hp tp ok₁ rd ps).2.map stripClose =
        (monitorLoop hp tp ok₂ rd ps).2.map stripClose := by
  intro ps
  induction ps with
  | nil => intro rd; rfl
  | cons p rest ih =>
      intro rd
      simp only [monitorLoop, List.map_append]
      have hstep : ((monitorStep hp tp ok₁ rd p).2.toList).map stripClose =
          ((monitorStep hp tp ok₂ rd p).2.toList).map stripClose := by
        simp only [monitorStep]
        cases (monitorCore hp tp rd p).2 <;> rfl
      rw [hstep]
      have hrest := ih (monitorCore hp tp rd p).1
      exact congrArg _ hrest

theorem monitorLoop_trigger_deleted (hp tp : ℚ) (ok : String → Bool) :
    ∀ (ps : List Position) (rd : RiskData),
      (ps.map Position.symbol).Nodup →
      ∀ c ∈ (monitorLoop hp tp ok rd ps).2,
        dlookup c.symbol (monitorLoop hp tp ok rd ps).1 = none := by
  intro ps
  induction ps with
  | nil => intro rd _ c hc; simp [monitorLoop] at hc
  | cons p rest ih =>
      intro rd hnd c hc
      simp only [List.map_cons, List.nodup_cons] at hnd
      obtain ⟨hn1, hn2⟩ := hnd
      simp only [monitorLoop] at hc ⊢
      rw [List.mem_append] at hc
      rcases hc with hc | hc
      · have hsome : (monitorStep hp tp ok rd p).2 = some c := by
          cases hst : (monitorStep hp tp ok rd p).2 with
          | none => rw [hst] at hc; simp at hc
          | some c' =>
              rw [hst] at hc
              simp at hc
              rw [hc]
        obtain ⟨hsym, hk⟩ := monitorStep_close_cases hp tp ok rd p c hsome
        have hdel : dlookup p.symbol (monitorCore hp tp rd p).1 = none :=
          monitorCore_trigger_lookup hp tp rd p c.kind hk
        rw [hsym, monitorLoop_lookup_notmem hp tp ok rest _ p.symbol hn1,
          monitorStep_fst]
        exact hdel
      · exact ih (monitorStep hp tp ok rd p).1 hn2 c hc

theorem monitorLoop_record_evolution (hp tp : ℚ) (ok : String → Bool) :
    ∀ (ps : List Position) (rd : RiskData) (s : String) (r r' : RiskRecord),
      (ps.map Position.symbol).Nodup →
      dlookup s rd = some r →
      dlookup s (monitorLoop hp tp ok rd ps).1 = some r' →
      r'.side = r.side ∧
      ((∀ p ∈ ps, p.symbol = s → 0 < p.qty) →
        r.extreme_price ≤ r'.extreme_price) ∧
      ((∀ p ∈ ps, p.symbol = s → ¬ 0 < p.qty) →
        r'.extreme_price ≤ r.extreme_price) := by
  intro ps
  induction ps with
  | nil =>
      intro rd s r r' _ h h'
      simp only [monitorLoop] at h'
      rw [h] at h'
      obtain rfl : r = r' := by injection h'
      exact ⟨rfl, fun _ => le_refl _, fun _ => le_refl _⟩
  | cons p rest ih =>
      intro rd s r r' hnd h h'
      simp only [List.map_cons, List.nodup_cons] at hnd
      obtain ⟨hn1, hn2⟩ := hnd
      simp only [monitorLoop] at h'
      by_cases hps : p.symbol = s
      · subst hps
        rw [monitorLoop_lookup_notmem hp tp ok rest _ p.symbol hn1,
          monitorStep_fst] at h'
        rcases monitorCore_lookup_self hp tp rd p r h with hnone | ⟨r₁, hr₁, hside, hlong, hshort⟩
        · rw [hnone] at h'
          exact absurd h' (by simp)
        · rw [hr₁] at h'
          obtain rfl : r₁ = r' := by injection h'
          refine ⟨hside, ?_, ?_⟩
          · intro hL
            exact hlong (hL p (by simp) rfl)
          · intro hS
            exact hshort (hS p (by simp) rfl)
      · have hstep : dlookup s (monitorStep hp tp ok rd p).1 = some r := by
          rw [monitorStep_fst, monitorCore_lookup_ne hp tp rd p s hps]
          exact h
        obtain ⟨hside, hlong, hshort⟩ :=
          ih (monitorStep hp tp ok rd p).1 s r r' hn2 hstep h'
        refine ⟨hside, ?_, ?_⟩
        · intro hL
          exact hlong (fun q hq hqs => hL q (List.mem_cons_of_mem _ hq) hqs)
        · intro hS
          exact hshort (fun q hq hqs => hS q (List.mem_cons_of_mem _ hq) hqs)

/-! Claim theorems. -/

/-- C1: for every long position one monitoring evaluation computes
`hard_stop = entry*(1-hard_pct)`, `trail_stop = extreme*(1-trail_pct)`,
`final_stop = max(hard_stop, trail_stop)` and triggers exactly when
`current_price <= final_stop`; for shorts it mirrors with `+` signs,
`final_stop = min(...)` and triggers exactly when `current_price >=
final_stop`; the extreme used is the favorably-updated one. In Scenario 1
(LONG, entry=100, extreme=110, hard=0.08, trail=0.05, current=104) the
evaluation yields final_stop=104.5, triggered=true, kind=TRAIL. -/
theorem C1_stop_rule (hp tp : ℚ) (ok : String → Bool) (rd : RiskData)
    (p : Position) (x : ℚ) (sd : Side)
    (h : dlookup p.symbol rd = some ⟨x, sd⟩) :
    (∀ e y c : ℚ,
      (stopEval true e y c hp tp).1 = max (e * (1 - hp)) (y * (1 - tp)) ∧
      ((stopEval true e y c hp tp).2.1 = true ↔
        c ≤ max (e * (1 - hp)) (y * (1 - tp)))) ∧
    (∀ e y c : ℚ,
      (stopEval false e y c hp tp).1 = min (e * (1 + hp)) (y * (1 + tp)) ∧
      ((stopEval false e y c hp tp).2.1 = true ↔
        min (e * (1 + hp)) (y * (1 + tp)) ≤ c)) ∧
    (0 < p.qty →
      ((monitorStep hp tp ok rd p).2.isSome = true ↔
        p.current_price ≤ max (p.avg_entry_price * (1 - hp))
          (max x p.current_price * (1 - tp)))) ∧
    (¬ 0 < p.qty →
      ((monitorStep hp tp ok rd p).2.isSome = true ↔
        min (p.avg_entry_price * (1 + hp))
          (min x p.current_price * (1 + tp)) ≤ p.current_price)) ∧
    stopEval true 100 110 104 (8/100) (5/100) = (209/2, true, TriggerKind.TRAIL) := by
  have hmap : (monitorStep hp tp ok rd p).2.isSome = (monitorCore hp tp rd p).2.isSome := by
    cases hc : (monitorCore hp tp rd p).2 <;> simp [monitorStep, hc]
  refine ⟨?_, ?_, ?_, ?_, ?_⟩
  · intro e y c
    constructor
    · simp [stopEval]
    · simp [stopEval]
  · intro e y c
    constructor
    · simp [stopEval]
    · simp [stopEval]
  · intro hq
    have hsnd : (updatedRd rd p).2 = max x p.current_price := by
      rw [updatedRd_snd_some rd p ⟨x, sd⟩ h, if_pos hq]
    rw [hmap, monitorCore_snd, hsnd, decide_eq_true hq]
    by_cases hP : p.current_price ≤ max (p.avg_entry_price * (1 - hp))
        (max x p.current_price * (1 - tp))
    · simp [stopEval, hP]
    · simp [stopEval, hP]
  · intro hq
    have hsnd : (updatedRd rd p).2 = min x p.current_price := by
      rw [updatedRd_snd_some rd p ⟨x, sd⟩ h, if_neg hq]
    have hdq : decide (0 < p.qty) = false := decide_eq_false hq
    rw [hmap, monitorCore_snd, hsnd, hdq]
    by_cases hP : min (p.avg_entry_price * (1 + hp))
        (min x p.current_price * (1 + tp)) ≤ p.current_price
    · simp [stopEval, hP]
    · simp [stopEval, hP]
  · norm_num [stopEval]

/-- Witness for C1 at Scenario 1: the LONG AAPL position with a stored
extreme of 110 and current price 104. -/
theorem C1_stop_rule_witness :
    dlookup ("AAPL") [("AAPL", (⟨110, Side.LONG⟩ : RiskRecord))] =
      some ⟨110, Side.LONG⟩ ∧
    ((0 : ℚ) < 5 →
      ((monitorStep (8/100) (5/100) (fun _ => true)
          [("AAPL", ⟨110, Side.LONG⟩)] ⟨"AAPL", 5, 100, 104⟩).2.isSome = true ↔
        (104 : ℚ) ≤ max ((100 : ℚ) * (1 - 8/100)) (max 110 104 * (1 - 5/100)))) ∧
    stopEval true 100 110 104 (8/100) (5/100) = (209/2, true, TriggerKind.TRAIL) :=
  ⟨rfl,
   (C1_stop_rule (8/100) (5/100) (fun _ => true) [("AAPL", ⟨110, Side.LONG⟩)]
      ⟨"AAPL", 5, 100, 104⟩ 110 Side.LONG rfl).2.2.1,
   (C1_stop_rule (8/100) (5/100) (fun _ => true) [("AAPL", ⟨110, Side.LONG⟩)]
      ⟨"AAPL", 5, 100, 104⟩ 110 Side.LONG rfl).2.2.2.2⟩

/-- C3 counterexample: on the SHORT scenario (entry=200, extreme=180,
hard=0.08, trail=0.05, current=220) the code computes final_stop = min(216,
189) = 189 and tags the trigger TRAIL, not the claimed final_stop=216 and
kind HARD. -/
theorem C3_spec_scenario_false :
    (stopEval false 200 180 220 (8/100) (5/100)).1 = 189 ∧
    (stopEval false 200 180 220 (8/100) (5/100)).2.1 = true ∧
    (stopEval false 200 180 220 (8/100) (5/100)).2.2 = TriggerKind.TRAIL ∧
    ¬ ((stopEval false 200 180 220 (8/100) (5/100)).1 = 216 ∧
       (stopEval false 200 180 220 (8/100) (5/100)).2.2 = TriggerKind.HARD) := by
  norm_num [stopEval]

/-- C3 (amended): for the SHORT scenario the evaluation computes
hard_stop=216 and trail_stop=189, final_stop = min(216,189) = 189, reports
triggered=true (220 >= 189), and tags the resulting closing order TRAIL
(the code re-derives the kind by comparing final with trail, which are
equal here). -/
theorem C3_short_scenario_code :
    200 * (1 + (8 : ℚ)/100) = 216 ∧
    180 * (1 + (5 : ℚ)/100) = 189 ∧
    stopEval false 200 180 220 (8/100) (5/100) = (min 216 189, true, TriggerKind.TRAIL) ∧
    min (216 : ℚ) 189 = 189 ∧
    monitor_and_execute (8/100) (5/100) (fun _ => true)
      [("TSLA", ⟨180, Side.SHORT⟩)] [⟨"TSLA", -10, 200, 220⟩] =
    ([], [⟨"TSLA", 10, OrderSide.buy, TriggerKind.TRAIL, true⟩]) := by
  refine ⟨by norm_num, by norm_num, by norm_num [stopEval], by norm_num, ?_⟩
  norm_num [monitor_and_execute, monitorLoop, monitorStep, monitorCore, updatedRd,
    seedRecord, extremeOf, stopEval, dlookup, dupdate, derase, dkeep, execute_close]

/-- C6: the code has no guard for zero or negative upstream prices. With
entry_price = 0 on a LONG position (extreme 110, current 104) the trailing
formula still triggers and a closing order is issued; likewise a negative
current price triggers the hard stop. The claim demands such inputs be
treated as non-triggering. -/
theorem C6_garbage_input_triggers_close :
    monitor_and_execute (8/100) (5/100) (fun _ => true)
      [("A", ⟨110, Side.LONG⟩)] [⟨"A", 10, 0, 104⟩] =
    ([], [⟨"A", 10, OrderSide.sell, TriggerKind.TRAIL, true⟩]) ∧
    monitor_and_execute (8/100) (5/100) (fun _ => true) [] [⟨"B", 10, 100, -5⟩] =
    ([], [⟨"B", 10, OrderSide.sell, TriggerKind.HARD, true⟩]) := by
  constructor <;>
    norm_num [monitor_and_execute, monitorLoop, monitorStep, monitorCore, updatedRd,
      seedRecord, extremeOf, stopEval, dlookup, dupdate, derase, dkeep, execute_close]

/-- C5 counterexample: a stored record with side LONG has its extreme_price
moved down (110 to 100) by a pass in which the live position for the symbol
is short, so the stored extreme is not non-decreasing while the record's
side field is LONG. -/
theorem C5_stored_side_violated :
    monitor_and_execute (8/100) (5/100) (fun _ => true)
      [("X", ⟨110, Side.LONG⟩)] [⟨"X", -5, 100, 100⟩] =
    ([("X", ⟨100, Side.LONG⟩)], []) ∧ (100 : ℚ) < 110 := by
  constructor
  · norm_num [monitor_and_execute, monitorLoop, monitorStep, monitorCore, updatedRd,
      seedRecord, extremeOf, stopEval, dlookup, dupdate, derase, dkeep, execute_close]
  · norm_num

/-- C5 (amended): across a pass the stored extreme_price for a symbol is
non-decreasing when the live position for that symbol is long and
non-increasing when it is short (and the stored side field is never
mutated); the monotonicity is relative to the live position's side, not the
record's stored side field. -/
theorem C5_extreme_monotone_live_side (hp tp : ℚ) (ok : String → Bool)
    (rd : RiskData) (ps : List Position) (s : String) (r r' : RiskRecord)
    (hnd : (ps.map Position.symbol).Nodup)
    (h : dlookup s rd = some r)
    (h' : dlookup s (monitor_and_execute hp tp ok rd ps).1 = some r') :
    r'.side = r.side ∧
    ((∀ p ∈ ps, p.symbol = s → 0 < p.qty) → r.extreme_price ≤ r'.extreme_price) ∧
    ((∀ p ∈ ps, p.symbol = s → ¬ 0 < p.qty) → r'.extreme_price ≤ r.extreme_price) := by
  by_cases hps : ps = []
  · subst hps
    simp [monitor_and_execute, dlookup] at h'
  · simp only [monitor_and_execute, if_neg hps] at h'
    rw [dlookup_dkeep] at h'
    by_cases hmem : s ∈ ps.map Position.symbol
    · rw [if_pos hmem] at h'
      exact monitorLoop_record_evolution hp tp ok ps rd s r r' hnd h h'
    · rw [if_neg hmem] at h'
      exact absurd h' (by simp)

/-- Witness for C5 (amended): a LONG AAPL position rallying from extreme 100
to 104 keeps its side and raises the stored extreme. -/
theorem C5_extreme_monotone_live_side_witness :
    (([⟨"AAPL", 5, 100, 104⟩] : List Position).map Position.symbol).Nodup ∧
    dlookup ("AAPL") [("AAPL", (⟨100, Side.LONG⟩ : RiskRecord))] =
      some ⟨100, Side.LONG⟩ ∧
    dlookup ("AAPL") (monitor_and_execute (8/100) (5/100) (fun _ => true)
      [("AAPL", ⟨100, Side.LONG⟩)] [⟨"AAPL", 5, 100, 104⟩]).1 =
      some ⟨104, Side.LONG⟩ ∧
    (Side.LONG = Side.LONG ∧
     ((∀ p ∈ ([⟨"AAPL", 5, 100, 104⟩] : List Position), p.symbol = "AAPL" →
        0 < p.qty) → (100 : ℚ) ≤ 104) ∧
     ((∀ p ∈ ([⟨"AAPL", 5, 100, 104⟩] : List Position), p.symbol = "AAPL" →
        ¬ 0 < p.qty) → (104 : ℚ) ≤ 100)) :=
  ⟨by decide, rfl,
   by norm_num [monitor_and_execute, monitorLoop, monitorStep, monitorCore, updatedRd,
     seedRecord, extremeOf, stopEval, dlookup, dupdate, derase, dkeep, execute_close],
   C5_extreme_monotone_live_side (8/100) (5/100) (fun _ => true)
     [("AAPL", ⟨100, Side.LONG⟩)] [⟨"AAPL", 5, 100, 104⟩] "AAPL"
     ⟨100, Side.LONG⟩ ⟨104, Side.LONG⟩ (by decide) rfl
     (by norm_num [monitor_and_execute, monitorLoop, monitorStep, monitorCore, updatedRd,
       seedRecord, extremeOf, stopEval, dlookup, dupdate, derase, dkeep, execute_close])⟩

/-- C7: whenever a stop triggers during a pass the record is deleted in that
same pass regardless of the submit outcome — the persisted state and the
set of issued closes (up to the recorded outcome flag) are identical under
any two submit-outcome oracles, and every close's symbol is absent from the
persisted state. -/
theorem C7_submit_outcome_isolated (hp tp : ℚ) (ok₁ ok₂ : String → Bool)
    (rd : RiskData) (ps : List Position)
    (hnd : (ps.map Position.symbol).Nodup) :
    (monitor_and_execute hp tp ok₁ rd ps).1 = (monitor_and_execute hp tp ok₂ rd ps).1 ∧
    (monitor_and_execute hp tp ok₁ rd ps).2.map stripClose =
      (monitor_and_execute hp tp ok₂ rd ps).2.map stripClose ∧
    ∀ c ∈ (monitor_and_execute hp tp ok₁ rd ps).2,
      dlookup c.symbol (monitor_and_execute hp tp ok₁ rd ps).1 = none := by
  by_cases hps : ps = []
  · subst hps
    refine ⟨rfl, rfl, ?_⟩
    intro c hc
    simp [monitor_and_execute] at hc
  · simp only [monitor_and_execute, if_neg hps]
    refine ⟨?_, ?_, ?_⟩
    · rw [monitorLoop_fst_ok hp tp ok₁ ok₂ ps rd]
    · exact monitorLoop_closes_ok hp tp ok₁ ok₂ ps rd
    · intro c hc
      have hdel := monitorLoop_trigger_deleted hp tp ok₁ ps rd hnd c hc
      rw [dlookup_dkeep]
      split
      · exact hdel
      · rfl

/-- Witness for C7: a triggering LONG position under a succeeding and a
failing submit oracle. -/
theorem C7_submit_outcome_isolated_witness :
    (([⟨"A", 10, 100, 80⟩] : List Position).map Position.symbol).Nodup ∧
    (monitor_and_execute (8/100) (5/100) (fun _ => true)
        [("A", ⟨110, Side.LONG⟩)] [⟨"A", 10, 100, 80⟩]).1 =
      (monitor_and_execute (8/100) (5/100) (fun _ => false)
        [("A", ⟨110, Side.LONG⟩)] [⟨"A", 10, 100, 80⟩]).1 ∧
    (monitor_and_execute (8/100) (5/100) (fun _ => true)
        [("A", ⟨110, Side.LONG⟩)] [⟨"A", 10, 100, 80⟩]).2.map stripClose =
      (monitor_and_execute (8/100) (5/100) (fun _ => false)
        [("A", ⟨110, Side.LONG⟩)] [⟨"A", 10, 100, 80⟩]).2.map stripClose ∧
    ∀ c ∈ (monitor_and_execute (8/100) (5/100) (fun _ => true)
        [("A", ⟨110, Side.LONG⟩)] [⟨"A", 10, 100, 80⟩]).2,
      dlookup c.symbol (monitor_and_execute (8/100) (5/100) (fun _ => true)
        [("A", ⟨110, Side.LONG⟩)] [⟨"A", 10, 100, 80⟩]).1 = none :=
  ⟨by decide,
   C7_submit_outcome_isolated (8/100) (5/100) (fun _ => true) (fun _ => false)
     [("A", ⟨110, Side.LONG⟩)] [⟨"A", 10, 100, 80⟩] (by decide)⟩

/-- C8: at the end of every pass that successfully read live positions the
persisted store contains records only for live symbols, and a pass with no
positions clears the store entirely. -/
theorem C8_no_orphaned_records (hp tp : ℚ) (ok : String → Bool) (rd : RiskData)
    (ps : List Position) :
    (∀ s r, dlookup s (monitor_and_execute hp tp ok rd ps).1 = some r →
      s ∈ ps.map Position.symbol) ∧
    monitor_and_execute hp tp ok rd [] = ([], []) := by
  refine ⟨?_, rfl⟩
  intro s r h
  by_cases hps : ps = []
  · subst hps
    simp [monitor_and_execute, dlookup] at h
  · simp only [monitor_and_execute, if_neg hps] at h
    rw [dlookup_dkeep] at h
    by_cases hmem : s ∈ ps.map Position.symbol
    · exact hmem
    · rw [if_neg hmem] at h
      exact absurd h (by simp)

/-- Witness for C8: after a pass seeding a fresh record for the only live
symbol, that symbol is (necessarily) among the live symbols. -/
theorem C8_no_orphaned_records_witness :
    dlookup ("A") (monitor_and_execute (8/100) (5/100) (fun _ => true)
      [] [⟨"A", 10, 100, 104⟩]).1 = some ⟨104, Side.LONG⟩ ∧
    ("A") ∈ ([⟨"A", 10, 100, 104⟩] : List Position).map Position.symbol :=
  ⟨by norm_num [monitor_and_execute, monitorLoop, monitorStep, monitorCore, updatedRd,
     seedRecord, extremeOf, stopEval, dlookup, dupdate, derase, dkeep, execute_close],
   (C8_no_orphaned_records (8/100) (5/100) (fun _ => true) [] [⟨"A", 10, 100, 104⟩]).1
     "A" ⟨104, Side.LONG⟩
     (by norm_num [monitor_and_execute, monitorLoop, monitorStep, monitorCore, updatedRd,
       seedRecord, extremeOf, stopEval, dlookup, dupdate, derase, dkeep, execute_close])⟩

/-- C2: `get_live_portfolio` stores the gateway's signed quantity (negative
for shorts) unchanged in the "short" field, so the COVER precondition
`short_qty > 0` can never hold for a live short position: a COVER against a
live short of -10 is rejected with the no-short-position reason and nothing
is submitted, contrary to the claimed resolution to a BUY. -/
theorem C2_cover_rejected_with_live_short :
    get_live_portfolio [⟨"TSLA", -10, "short"⟩] = [("TSLA", ⟨0, -10⟩)] ∧
    execute_decisions 10000 (5/100) [⟨"TSLA", -10, "short"⟩] (fun _ => 50) (fun _ => true)
      [("TSLA", ⟨"COVER", PyVal.int 5⟩)] =
    Except.ok [Event.rejected ("TSLA") RejectReason.noShortPosition] := by
  constructor
  · simp +decide [get_live_portfolio, pset]
  · simp +decide [execute_decisions, execDecisions, execItem, execItemEvents,
      get_live_portfolio, pset, plookup, pyToInt, submitEvent]

/-- C9: the `int(...)` conversion of a malformed quantity raises an uncaught
exception that escapes `execute_decisions` and aborts the whole batch: with
a malformed first item, the error propagates and the valid second item
(which alone would be submitted) is never processed, contrary to the
claimed single-item rejection. -/
theorem C9_malformed_quantity_aborts_batch :
    execute_decisions 10000 (5/100) [⟨"MSFT", 50, "long"⟩] (fun _ => 50) (fun _ => true)
      [("AAPL", ⟨"BUY", PyVal.str ("abc")⟩), ("MSFT", ⟨"SELL", PyVal.int 5⟩)] =
    Except.error ("invalid literal for int") ∧
    execute_decisions 10000 (5/100) [⟨"MSFT", 50, "long"⟩] (fun _ => 50) (fun _ => true)
      [("MSFT", ⟨"SELL", PyVal.int 5⟩)] =
    Except.ok [Event.submitted ("MSFT") OrderSide.sell 5] := by
  constructor
  · simp +decide [execute_decisions, execDecisions, execItem, pyToInt, pyStrToInt,
      parseNatChars, digitVal]
  · simp +decide [execute_decisions, execDecisions, execItem, execItemEvents,
      get_live_portfolio, pset, plookup, pyToInt, submitEvent]

/-- C10: a decision whose upper-cased action is none of BUY, SELL, SHORT,
COVER, HOLD and whose quantity is positive is silently skipped: it produces
no event (no order, no rejection) and the rest of the batch is processed as
if the item were absent. -/
theorem C10_unknown_action_skipped (env : ExecEnv) (t : String) (d : Decision)
    (q : ℤ) (rest : List (String × Decision))
    (hq : pyToInt d.quantity = Except.ok q) (hpos : 0 < q)
    (hact : pyUpper d.action ∉ (["BUY", "SELL", "SHORT", "COVER", "HOLD"] : List String)) :
    execItem env t d = Except.ok [] ∧
    execDecisions env ((t, d) :: rest) = execDecisions env rest := by
  simp only [List.mem_cons, List.not_mem_nil, or_false, not_or] at hact
  obtain ⟨h1, h2, h3, h4, h5⟩ := hact
  have hhold : ¬ (q ≤ 0 ∨ pyUpper d.action = "HOLD") := by
    push_neg
    exact ⟨hpos, h5⟩
  have hitem : execItem env t d = Except.ok [] := by
    simp only [execItem, hq]
    simp only [execItemEvents, if_neg hhold, if_neg h1, if_neg h2, if_neg h3, if_neg h4]
  refine ⟨hitem, ?_⟩
  simp only [execDecisions, hitem]
  cases hrest : execDecisions env rest <;> simp

/-- Witness for C10: the lowercase action "wait" (upper-cased to WAIT) with
quantity 3 is silently dropped while the following SELL is still processed. -/
theorem C10_unknown_action_skipped_witness :
    pyToInt (PyVal.int 3) = Except.ok 3 ∧ (0 : ℤ) < 3 ∧
    pyUpper ("wait") ∉ (["BUY", "SELL", "SHORT", "COVER", "HOLD"] : List String) ∧
    execItem ⟨[("MSFT", ⟨50, 0⟩)], 10000, 5/100, fun _ => 50, fun _ => true⟩
      ("NVDA") ⟨"wait", PyVal.int 3⟩ = Except.ok [] ∧
    execDecisions ⟨[("MSFT", ⟨50, 0⟩)], 10000, 5/100, fun _ => 50, fun _ => true⟩
      [("NVDA", ⟨"wait", PyVal.int 3⟩), ("MSFT", ⟨"SELL", PyVal.int 5⟩)] =
    execDecisions ⟨[("MSFT", ⟨50, 0⟩)], 10000, 5/100, fun _ => 50, fun _ => true⟩
      [("MSFT", ⟨"SELL", PyVal.int 5⟩)] :=
  ⟨rfl, by decide, by decide,
   C10_unknown_action_skipped ⟨[("MSFT", ⟨50, 0⟩)], 10000, 5/100, fun _ => 50, fun _ => true⟩
     ("NVDA") ⟨"wait", PyVal.int 3⟩ 3 [("MSFT", ⟨"SELL", PyVal.int 5⟩)]
     rfl (by decide) (by decide)⟩

/-- C4: a BUY is first clamped to floor(cash*(1-buffer)/live_price) when the
requested quantity exceeds that bound and then scaled to
floor(quantity*(1-buffer)), so the submitted quantity's notional at the
live price never exceeds cash*(1-buffer); in Scenario 3 (requested 1000,
cash=10000, buffer=0.05, live_price=50) the submitted quantity is 180 with
side BUY. -/
theorem C4_buy_notional_bound (pf : Portfolio) (cash b : ℚ) (price : String → ℚ)
    (ok : String → Bool) (t : String) (q : ℤ)
    (hq : 0 < q) (hcash : 0 ≤ cash) (hb0 : 0 ≤ b) (hb1 : b < 1)
    (hpr : 0 < price t)
    (hshort : ((plookup t pf).getD ⟨0, 0⟩).short ≤ 0) :
    execItem ⟨pf, cash, b, price, ok⟩ t ⟨"BUY", PyVal.int q⟩ =
      Except.ok [submitEvent ⟨pf, cash, b, price, ok⟩ t OrderSide.buy
        (pyInt ((((if pyInt (cash * (1 - b) / price t) < q
                   then pyInt (cash * (1 - b) / price t) else q) : ℤ) : ℚ) * (1 - b)))] ∧
    (pyInt ((((if pyInt (cash * (1 - b) / price t) < q
               then pyInt (cash * (1 - b) / price t) else q) : ℤ) : ℚ) * (1 - b)) : ℚ)
        * price t ≤ cash * (1 - b) ∧
    execute_decisions 10000 (5/100) [] (fun _ => 50) (fun _ => true)
      [("MSFT", ⟨"BUY", PyVal.int 1000⟩)] =
    Except.ok [Event.submitted ("MSFT") OrderSide.buy 180] := by
  have hup : pyUpper ("BUY") = "BUY" := by decide
  have hhold : ¬ (q ≤ 0 ∨ ("BUY" : String) = "HOLD") := by
    push_neg
    exact ⟨hq, by decide⟩
  refine ⟨?_, ?_, ?_⟩
  · simp only [execItem, pyToInt]
    rw [hup]
    simp +decide only [execItemEvents, or_false, if_true, if_false,
      if_neg (not_le.mpr hq), if_pos hpr.ne', if_neg (not_lt.mpr hshort)]
  · have hbpos : (0 : ℚ) < 1 - b := by linarith
    have hdiv : (0 : ℚ) ≤ cash * (1 - b) / price t :=
      div_nonneg (mul_nonneg hcash (le_of_lt hbpos)) (le_of_lt hpr)
    have hMdef : pyInt (cash * (1 - b) / price t) = ⌊cash * (1 - b) / price t⌋ := by
      rw [pyInt, if_neg (not_lt.mpr hdiv)]
    have hM0 : (0 : ℤ) ≤ pyInt (cash * (1 - b) / price t) := by
      rw [hMdef]
      exact Int.floor_nonneg.mpr hdiv
    have hMle : (pyInt (cash * (1 - b) / price t) : ℚ) ≤ cash * (1 - b) / price t := by
      rw [hMdef]
      exact Int.floor_le _
    set q1 : ℤ := if pyInt (cash * (1 - b) / price t) < q
                  then pyInt (cash * (1 - b) / price t) else q with hq1
    have hq1M : q1 ≤ pyInt (cash * (1 - b) / price t) := by
      rcases lt_or_le (pyInt (cash * (1 - b) / price t)) q with hlt | hle
      · rw [hq1, if_pos hlt]
      · rw [hq1, if_neg (not_lt.mpr hle)]
        exact hle
    have hq10 : (0 : ℤ) ≤ q1 := by
      rcases lt_or_le (pyInt (cash * (1 - b) / price t)) q with hlt | hle
      · rw [hq1, if_pos hlt]
        exact hM0
      · rw [hq1, if_neg (not_lt.mpr hle)]
        exact le_of_lt hq
    have hq10q : (0 : ℚ) ≤ (q1 : ℚ) := by exact_mod_cast hq10
    have harg : (0 : ℚ) ≤ (q1 : ℚ) * (1 - b) := mul_nonneg hq10q (le_of_lt hbpos)
    have h2a : (pyInt ((q1 : ℚ) * (1 - b)) : ℚ) ≤ (q1 : ℚ) * (1 - b) := by
      rw [pyInt, if_neg (not_lt.mpr harg)]
      exact Int.floor_le _
    have h2b : (q1 : ℚ) * (1 - b) ≤ (q1 : ℚ) := by nlinarith
    have hq1cast : (q1 : ℚ) ≤ (pyInt (cash * (1 - b) / price t) : ℚ) := by
      exact_mod_cast hq1M
    calc (pyInt ((q1 : ℚ) * (1 - b)) : ℚ) * price t
        ≤ (q1 : ℚ) * price t :=
          mul_le_mul_of_nonneg_right (h2a.trans h2b) (le_of_lt hpr)
      _ ≤ (pyInt (cash * (1 - b) / price t) : ℚ) * price t :=
          mul_le_mul_of_nonneg_right hq1cast (le_of_lt hpr)
      _ ≤ (cash * (1 - b) / price t) * price t :=
          mul_le_mul_of_nonneg_right hMle (le_of_lt hpr)
      _ = cash * (1 - b) := div_mul_cancel₀ _ (ne_of_gt hpr)
  · simp +decide [execute_decisions, execDecisions, execItem, execItemEvents,
      get_live_portfolio, pset, plookup, pyToInt, submitEvent]
    norm_num [pyInt]

/-- Witness for C4 at Scenario 3. -/
theorem C4_buy_notional_bound_witness :
    (0 : ℤ) < 1000 ∧ (0 : ℚ) ≤ 10000 ∧ (0 : ℚ) ≤ 5/100 ∧ (5 : ℚ)/100 < 1 ∧
    (0 : ℚ) < 50 ∧ ((plookup ("MSFT") ([] : Portfolio)).getD ⟨0, 0⟩).short ≤ 0 ∧
    (pyInt ((((if pyInt ((10000 : ℚ) * (1 - 5/100) / 50) < 1000
               then pyInt ((10000 : ℚ) * (1 - 5/100) / 50) else 1000) : ℤ) : ℚ)
        * (1 - 5/100)) : ℚ) * 50 ≤ (10000 : ℚ) * (1 - 5/100) :=
  ⟨by decide, by norm_num, by norm_num, by norm_num, by norm_num,
   by norm_num [plookup],
   (C4_buy_notional_bound [] 10000 (5/100) (fun _ => 50) (fun _ => true) ("MSFT") 1000
     (by decide) (by norm_num) (by norm_num) (by norm_num) (by norm_num)
     (by norm_num [plookup])).2.1⟩
